import Mathlib

/-!
Shallow embedding of the Avellaneda–Stoikov market-making engine
(`src/strategies/avellaneda_stoikov.rs`), the standalone EWMA volatility
estimator (`src/indicators/volatility.rs`) and the configuration validator
(`src/strategies/config.rs`).

Conventions of the embedding:
* `f64` values are embedded as real numbers (`ℝ`); `rust_decimal::Decimal`
  values as rationals (`ℚ`); `u64`/`usize` counters as `ℕ`.
* `VecDeque` is embedded as `List` with `push_back l x = l ++ [x]` and
  `pop_front l = l.tail`.
* A Rust panic (the `todo!()` arm of `on_fill`, and `f64::clamp` when the
  lower bound exceeds the upper bound) is embedded as `Option.none`; the
  operations that can panic return `Option`, the others are total.
-/

/-- Mirrors `ASConfig` (src/strategies/avellaneda_stoikov.rs, lines 17-60).
`f64` fields become `ℝ`, `usize` becomes `ℕ`. -/
structure ASConfig where
  instrument_id : String
  risk_aversion : ℝ
  order_arrival_rate : ℝ
  price_sensitivity : ℝ
  time_horizon : ℝ
  base_order_size : ℝ
  max_position_size : ℝ
  max_inventory : ℝ
  volatility_window : ℕ
  use_parkinson : Bool
  inventory_penalty_factor : ℝ
  max_spread_bps : ℝ
  min_spread_bps : ℝ

/-- Mirrors the `Default` impl for `ASConfig` (lines 62-80). -/
noncomputable def defaultASConfig : ASConfig where
  instrument_id := "BTCUSDT.BINANCE"
  risk_aversion := 0.1
  order_arrival_rate := 100
  price_sensitivity := 1.5
  time_horizon := 300
  base_order_size := 0.001
  max_position_size := 0.1
  max_inventory := 0.05
  volatility_window := 20
  use_parkinson := true
  inventory_penalty_factor := 2
  max_spread_bps := 200
  min_spread_bps := 2

/-- Mirrors `OrderBookSnapshot` (lines 84-90); `UnixNanos` becomes `ℕ`. -/
structure OrderBookSnapshot where
  best_bid : ℝ
  best_ask : ℝ
  bid_volume : ℝ
  ask_volume : ℝ
  timestamp_ns : ℕ

/-- Mirrors `Bar` (lines 94-101). The Rust field `open` is a Lean keyword,
so it is embedded as `open_price`. -/
structure Bar where
  open_price : ℝ
  high : ℝ
  low : ℝ
  close : ℝ
  volume : ℝ
  timestamp_ns : ℕ

/-- Mirrors `QuoteUpdate` (lines 105-112). -/
structure QuoteUpdate where
  bid_price : ℝ
  ask_price : ℝ
  bid_size : ℝ
  ask_size : ℝ
  spread : ℝ
  reservation_price : ℝ

/-- Mirrors `nautilus_model::enums::OrderSide` as consumed by `on_fill`
(lines 199-203): the three variants matched there. -/
inductive OrderSide where
  | buy
  | sell
  | noOrderSide
deriving DecidableEq, Repr

/-- Mirrors the `AvellanedaStoikov` struct (lines 117-137). The
`CacheAligned` wrappers are a memory-layout detail and are dropped; the
wrapped values are kept. -/
structure AvellanedaStoikov where
  config : ASConfig
  mid_price : ℝ
  volatility : ℝ
  inventory : ℝ
  price_history : List ℝ
  high_low_history : List (ℝ × ℝ)
  quote_updates : ℕ
  orderbook_updates : ℕ
  inventory_adjustments : ℕ
  last_update_ns : ℕ

/-- Mirrors `StrategyStats` (lines 367-374). -/
structure StrategyStats where
  quote_updates : ℕ
  orderbook_updates : ℕ
  inventory_adjustments : ℕ
  current_inventory : ℝ
  current_volatility : ℝ
  mid_price : ℝ

/-- Embedding of Rust `f64::clamp` over the reals: `none` models the panic
that `clamp` raises when the lower bound exceeds the upper bound. -/
noncomputable def rustClamp (x lo hi : ℝ) : Option ℝ :=
  if lo ≤ hi then some (max lo (min x hi)) else none

namespace AvellanedaStoikov

/-- Mirrors `AvellanedaStoikov::new` (lines 141-156): zero market state,
initial volatility `0.01`, empty histories, zero counters. -/
noncomputable def new (config : ASConfig) : AvellanedaStoikov where
  config := config
  mid_price := 0
  volatility := 0.01
  inventory := 0
  price_history := []
  high_low_history := []
  quote_updates := 0
  orderbook_updates := 0
  inventory_adjustments := 0
  last_update_ns := 0

/-- Mirrors `update_price_history` (lines 272-277): push_back, then pop the
front entry when the length exceeds `volatility_window`. -/
noncomputable def update_price_history (s : AvellanedaStoikov) (price : ℝ) :
    AvellanedaStoikov :=
  let h := s.price_history ++ [price]
  { s with price_history :=
      if s.config.volatility_window < h.length then h.tail else h }

/-- Mirrors `calculate_parkinson_volatility` (lines 284-301): with fewer
than 2 stored (high, low) pairs return `0.01`; otherwise sum
`ln(H/L)^2` over the pairs with `H > 0` and `L > 0` and divide by
`n * 4 * ln 2` where `n` is the full history length, then take the square
root. -/
noncomputable def calculate_parkinson_volatility (s : AvellanedaStoikov) : ℝ :=
  if s.high_low_history.length < 2 then 0.01
  else
    let sum_sq := s.high_low_history.foldl
      (fun acc p =>
        if 0 < p.1 ∧ 0 < p.2 then
          acc + Real.log (p.1 / p.2) * Real.log (p.1 / p.2)
        else acc) 0
    let n : ℝ := s.high_low_history.length
    Real.sqrt (sum_sq / (n * 4 * Real.log 2))

/-- Mirrors `calculate_standard_volatility` (lines 305-330): log-returns of
consecutive stored prices, then the square root of their mean-centred
second moment. -/
noncomputable def calculate_standard_volatility (s : AvellanedaStoikov) : ℝ :=
  if s.price_history.length < 2 then 0.01
  else
    let returns := (s.price_history.zip s.price_history.tail).map
      (fun p => Real.log (p.2 / p.1))
    if returns.isEmpty then 0.01
    else
      let mean := returns.sum / (returns.length : ℝ)
      let variance :=
        (returns.map (fun r => (r - mean) ^ 2)).sum / (returns.length : ℝ)
      Real.sqrt variance

/-- Mirrors `calculate_quotes` (lines 219-268). Returns the quote and the
state with the incremented `quote_updates` counter; `none` models the
panic of `clamp` when `min_spread > max_spread`. -/
noncomputable def calculate_quotes (s : AvellanedaStoikov) :
    Option (QuoteUpdate × AvellanedaStoikov) :=
  let s := { s with quote_updates := s.quote_updates + 1 }
  let mid := s.mid_price
  let sigma := s.volatility
  let gamma := s.config.risk_aversion
  let q := s.inventory
  let time_remaining := s.config.time_horizon
  let reservation_price := mid - q * gamma * sigma * sigma * time_remaining
  let kappa := s.config.price_sensitivity
  let spread_base := gamma * sigma * sigma * time_remaining
  let spread_adjustment := (2 / gamma) * Real.log (1 + gamma / kappa)
  let optimal_spread := spread_base + spread_adjustment
  let min_spread := mid * s.config.min_spread_bps / 10000
  let max_spread := mid * s.config.max_spread_bps / 10000
  match rustClamp optimal_spread min_spread max_spread with
  | none => none
  | some clamped =>
    let half_spread := clamped * 0.5
    let bid_price := reservation_price - half_spread
    let ask_price := reservation_price + half_spread
    let inventory_penalty := q * s.config.inventory_penalty_factor * sigma
    let bid_price := bid_price - inventory_penalty
    let ask_price := ask_price - inventory_penalty
    let size_adjustment := 1 - min (|q| / s.config.max_inventory) 1
    let order_size := s.config.base_order_size * size_adjustment
    some (⟨bid_price, ask_price, order_size, order_size, clamped,
           reservation_price⟩, s)

/-- Mirrors `on_orderbook_update` (lines 162-175): bump the order-book
counter, record the timestamp, set the mid-price to the average of best
bid and best ask, push it into the rolling price history, then compute the
quote. -/
noncomputable def on_orderbook_update (s : AvellanedaStoikov)
    (snapshot : OrderBookSnapshot) : Option (QuoteUpdate × AvellanedaStoikov) :=
  let s := { s with orderbook_updates := s.orderbook_updates + 1,
                    last_update_ns := snapshot.timestamp_ns }
  let new_mid := (snapshot.best_bid + snapshot.best_ask) * 0.5
  let s := { s with mid_price := new_mid }
  let s := s.update_price_history new_mid
  s.calculate_quotes

/-- Mirrors `on_bar` (lines 179-192): push (high, low) into the rolling
history with the same eviction rule, then recompute the volatility with
the configured estimator. -/
noncomputable def on_bar (s : AvellanedaStoikov) (bar : Bar) :
    AvellanedaStoikov :=
  let h := s.high_low_history ++ [(bar.high, bar.low)]
  let s := { s with high_low_history :=
      if s.config.volatility_window < h.length then h.tail else h }
  { s with volatility :=
      if s.config.use_parkinson then s.calculate_parkinson_volatility
      else s.calculate_standard_volatility }

/-- Mirrors `on_fill` (lines 196-213): bump the adjustment counter, then
add the quantity for a buy and subtract it for a sell. The
`OrderSide::NoOrderSide` arm is `todo!()` in the source, i.e. a panic,
embedded as `none`. The over-limit branch only logs a warning and changes
no state. -/
noncomputable def on_fill (s : AvellanedaStoikov) (side : OrderSide)
    (quantity : ℝ) : Option AvellanedaStoikov :=
  let s := { s with inventory_adjustments := s.inventory_adjustments + 1 }
  match side with
  | .buy => some { s with inventory := s.inventory + quantity }
  | .sell => some { s with inventory := s.inventory - quantity }
  | .noOrderSide => none

/-- Mirrors `get_stats` (lines 333-342). -/
noncomputable def get_stats (s : AvellanedaStoikov) : StrategyStats where
  quote_updates := s.quote_updates
  orderbook_updates := s.orderbook_updates
  inventory_adjustments := s.inventory_adjustments
  current_inventory := s.inventory
  current_volatility := s.volatility
  mid_price := s.mid_price

/-- Mirrors `reset` (lines 345-355): all mutable state back to the
construction-time defaults; the configuration is untouched. -/
noncomputable def reset (s : AvellanedaStoikov) : AvellanedaStoikov :=
  { s with mid_price := 0
           volatility := 0.01
           inventory := 0
           price_history := []
           high_low_history := []
           quote_updates := 0
           orderbook_updates := 0
           inventory_adjustments := 0
           last_update_ns := 0 }

end AvellanedaStoikov

/-- The success condition of `StrategyConfig::validate`
(src/strategies/config.rs, lines 85-103), read over the engine's `f64`
configuration: positive risk aversion, positive base order size,
`max_spread_bps > min_spread_bps`, nonzero volatility window. -/
def ASConfig.valid (c : ASConfig) : Prop :=
  0 < c.risk_aversion ∧ 0 < c.base_order_size ∧
    c.min_spread_bps < c.max_spread_bps ∧ c.volatility_window ≠ 0

/-- One event consumed by the engine's four mutating operations. -/
inductive ASEvent where
  | orderbook (snapshot : OrderBookSnapshot)
  | bar (b : Bar)
  | fill (side : OrderSide) (quantity : ℝ)
  | reset

/-- One engine step: dispatch an event to the matching operation,
discarding the quote. `none` models a panic inside the operation. -/
noncomputable def stepEvent (s : AvellanedaStoikov) :
    ASEvent → Option AvellanedaStoikov
  | .orderbook snap => (s.on_orderbook_update snap).map Prod.snd
  | .bar b => some (s.on_bar b)
  | .fill side q => s.on_fill side q
  | .reset => some s.reset

/-- Run a sequence of events from a state; `none` as soon as a step
panics. -/
noncomputable def runEvents (s : AvellanedaStoikov) :
    List ASEvent → Option AvellanedaStoikov
  | [] => some s
  | e :: es =>
    match stepEvent s e with
    | none => none
    | some s' => runEvents s' es

/-- Run a sequence of fills (side, quantity) through `on_fill`. -/
noncomputable def runFills (s : AvellanedaStoikov) :
    List (OrderSide × ℝ) → Option AvellanedaStoikov
  | [] => some s
  | f :: fs =>
    match s.on_fill f.1 f.2 with
    | none => none
    | some s' => runFills s' fs

/-- The signed contribution of one fill to the inventory: `+quantity` for a
buy, `-quantity` for a sell. -/
def signedQty (f : OrderSide × ℝ) : ℝ :=
  match f.1 with
  | .buy => f.2
  | .sell => -f.2
  | .noOrderSide => 0

/-- Mirrors `EWMAVolatility` (src/indicators/volatility.rs, lines 4-8). -/
structure EWMAVolatility where
  alpha : ℝ
  variance : ℝ
  initialized : Bool

namespace EWMAVolatility

/-- Mirrors `EWMAVolatility::new` (lines 11-17). -/
def new (alpha : ℝ) : EWMAVolatility where
  alpha := alpha
  variance := 0
  initialized := false

/-- Mirrors `EWMAVolatility::update` (lines 20-30): seed the variance with
`r²` on the first call, otherwise `α·r² + (1-α)·v`; return the updated
state together with the returned volatility `sqrt v`. -/
noncomputable def update (e : EWMAVolatility) (return_value : ℝ) :
    EWMAVolatility × ℝ :=
  let e :=
    if !e.initialized then
      { e with variance := return_value * return_value, initialized := true }
    else
      { e with variance := e.alpha * return_value * return_value
                 + (1 - e.alpha) * e.variance }
  (e, Real.sqrt e.variance)

/-- Mirrors `EWMAVolatility::get` (lines 32-34). -/
noncomputable def get (e : EWMAVolatility) : ℝ :=
  Real.sqrt e.variance

end EWMAVolatility

/-- Mirrors `StrategyConfig` (src/strategies/config.rs, lines 8-47):
`rust_decimal::Decimal` fields become `ℚ`. -/
structure StrategyConfig where
  instrument_id : String
  risk_aversion : ℚ
  order_arrival_rate : ℚ
  price_sensitivity : ℚ
  time_horizon : ℚ
  base_order_size : ℚ
  max_position_size : ℚ
  max_inventory : ℚ
  volatility_window : ℕ
  use_parkinson : Bool
  inventory_penalty_factor : ℚ
  max_spread_bps : ℚ
  min_spread_bps : ℚ

/-- Mirrors `StrategyConfig::validate` (lines 85-103): the four checks in
source order, each failing with the source's message. -/
def StrategyConfig.validate (c : StrategyConfig) : Except String Unit :=
  if c.risk_aversion ≤ 0 then .error "风险厌恶系数必须大于 0"
  else if c.base_order_size ≤ 0 then .error "基础订单大小必须大于 0"
  else if c.max_spread_bps ≤ c.min_spread_bps then .error "最大价差必须大于最小价差"
  else if c.volatility_window = 0 then .error "波动率窗口必须大于 0"
  else .ok ()

/-- Projection used to compare the two quoted prices of an
`on_orderbook_update` result. -/
noncomputable def quoteGap (r : Option (QuoteUpdate × AvellanedaStoikov)) :
    Option ℝ :=
  r.map fun p => p.1.ask_price - p.1.bid_price

/-- A state whose (high, low) history holds one valid pair and one pair
with a non-positive high, used to separate the divisor `n` of the
Parkinson estimator from the number of valid pairs. -/
noncomputable def parkinsonCexState : AvellanedaStoikov :=
  { AvellanedaStoikov.new defaultASConfig with
      high_low_history := [(1, 1), (-1, 1)] }

/-- `calculate_quotes` only bumps the quote counter: every other state
field is returned unchanged alongside the quote. -/
theorem calculate_quotes_state (s : AvellanedaStoikov) (q : QuoteUpdate)
    (s' : AvellanedaStoikov) (h : s.calculate_quotes = some (q, s')) :
    s' = { s with quote_updates := s.quote_updates + 1 } := by
  unfold AvellanedaStoikov.calculate_quotes at h
  dsimp only at h
  split at h
  · exact absurd h (by simp)
  · simp only [Option.some_inj, Prod.mk.injEq] at h
    exact h.2.symm

/-- Pushing a price keeps the history within the configured window. -/
theorem update_price_history_len (s : AvellanedaStoikov) (p : ℝ)
    (h : s.price_history.length ≤ s.config.volatility_window) :
    (s.update_price_history p).price_history.length
      ≤ s.config.volatility_window := by
  unfold AvellanedaStoikov.update_price_history
  dsimp only
  split
  · next hlt =>
      simp only [List.length_tail, List.length_append, List.length_cons,
        List.length_nil] at *
      omega
  · next hge =>
      simp only [List.length_append, List.length_cons, List.length_nil] at *
      omega

/-- An order-book update preserves the configuration and the OHLC history
and keeps the price history within the window. -/
theorem on_orderbook_update_state (s : AvellanedaStoikov)
    (snap : OrderBookSnapshot) (q : QuoteUpdate) (s' : AvellanedaStoikov)
    (h : s.on_orderbook_update snap = some (q, s'))
    (hp : s.price_history.length ≤ s.config.volatility_window) :
    s'.config = s.config ∧
    s'.price_history.length ≤ s.config.volatility_window ∧
    s'.high_low_history = s.high_low_history := by
  unfold AvellanedaStoikov.on_orderbook_update at h
  dsimp only at h
  have h2 := calculate_quotes_state _ _ _ h
  subst h2
  refine ⟨rfl, ?_, rfl⟩
  exact update_price_history_len
    { s with orderbook_updates := s.orderbook_updates + 1,
             last_update_ns := snap.timestamp_ns,
             mid_price := (snap.best_bid + snap.best_ask) * 0.5 } _ hp

/-- A bar update preserves the configuration and the price history and
keeps the OHLC history within the window. -/
theorem on_bar_state (s : AvellanedaStoikov) (b : Bar)
    (hh : s.high_low_history.length ≤ s.config.volatility_window) :
    (s.on_bar b).config = s.config ∧
    (s.on_bar b).price_history = s.price_history ∧
    (s.on_bar b).high_low_history.length ≤ s.config.volatility_window := by
  refine ⟨rfl, rfl, ?_⟩
  unfold AvellanedaStoikov.on_bar
  dsimp only
  split
  · next hlt =>
      simp only [List.length_tail, List.length_append, List.length_cons,
        List.length_nil] at *
      omega
  · next hge =>
      simp only [List.length_append, List.length_cons, List.length_nil] at *
      omega

/-- A fill preserves the configuration and both histories. -/
theorem on_fill_state (s : AvellanedaStoikov) (side : OrderSide) (qty : ℝ)
    (s' : AvellanedaStoikov) (h : s.on_fill side qty = some s') :
    s'.config = s.config ∧ s'.price_history = s.price_history ∧
    s'.high_low_history = s.high_low_history := by
  unfold AvellanedaStoikov.on_fill at h
  cases side <;> simp only [Option.some_inj] at h <;> first
    | (subst h; exact ⟨rfl, rfl, rfl⟩)
    | cases h

/-- An order-book update never changes the configuration. -/
theorem on_orderbook_update_config (s : AvellanedaStoikov)
    (snap : OrderBookSnapshot) (q : QuoteUpdate) (s' : AvellanedaStoikov)
    (h : s.on_orderbook_update snap = some (q, s')) : s'.config = s.config := by
  unfold AvellanedaStoikov.on_orderbook_update at h
  dsimp only at h
  have h2 := calculate_quotes_state _ _ _ h
  subst h2
  rfl

/-- No event changes the configuration. -/
theorem stepEvent_config (s : AvellanedaStoikov) (e : ASEvent)
    (s1 : AvellanedaStoikov) (h : stepEvent s e = some s1) :
    s1.config = s.config := by
  cases e with
  | orderbook snap =>
      simp only [stepEvent, Option.map_eq_some'] at h
      obtain ⟨⟨q, s2⟩, hsome, hsnd⟩ := h
      subst hsnd
      exact on_orderbook_update_config s snap q s2 hsome
  | bar b =>
      simp only [stepEvent, Option.some_inj] at h
      subst h
      rfl
  | fill side qty =>
      simp only [stepEvent] at h
      exact (on_fill_state s side qty s1 h).1
  | reset =>
      simp only [stepEvent, Option.some_inj] at h
      subst h
      rfl

/-- Every event keeps both histories within the window of the state's own
configuration. -/
theorem stepEvent_inv (s : AvellanedaStoikov) (e : ASEvent)
    (s1 : AvellanedaStoikov) (h : stepEvent s e = some s1)
    (hp : s.price_history.length ≤ s.config.volatility_window)
    (hh : s.high_low_history.length ≤ s.config.volatility_window) :
    s1.price_history.length ≤ s1.config.volatility_window ∧
    s1.high_low_history.length ≤ s1.config.volatility_window := by
  cases e with
  | orderbook snap =>
      simp only [stepEvent, Option.map_eq_some'] at h
      obtain ⟨⟨q, s2⟩, hsome, hsnd⟩ := h
      subst hsnd
      obtain ⟨hc, hl, hhl⟩ := on_orderbook_update_state s snap q s2 hsome hp
      rw [hc, hhl]
      exact ⟨hl, hh⟩
  | bar b =>
      simp only [stepEvent, Option.some_inj] at h
      subst h
      obtain ⟨hc, hl, hhl⟩ := on_bar_state s b hh
      rw [hc, hl]
      exact ⟨hp, hhl⟩
  | fill side qty =>
      simp only [stepEvent] at h
      obtain ⟨hc, hl, hhl⟩ := on_fill_state s side qty s1 h
      rw [hc, hl, hhl]
      exact ⟨hp, hh⟩
  | reset =>
      simp only [stepEvent, Option.some_inj] at h
      subst h
      simp [AvellanedaStoikov.reset]

/-- The window invariant is preserved along any event sequence. -/
theorem runEvents_inv (es : List ASEvent) : ∀ s s' : AvellanedaStoikov,
    runEvents s es = some s' →
    s.price_history.length ≤ s.config.volatility_window →
    s.high_low_history.length ≤ s.config.volatility_window →
    s'.price_history.length ≤ s'.config.volatility_window ∧
    s'.high_low_history.length ≤ s'.config.volatility_window := by
  induction es with
  | nil =>
      intro s s' h hp hh
      simp only [runEvents, Option.some_inj] at h
      subst h
      exact ⟨hp, hh⟩
  | cons e es ih =>
      intro s s' h hp hh
      rw [runEvents] at h
      cases he : stepEvent s e with
      | none => rw [he] at h; cases h
      | some s1 =>
          rw [he] at h
          obtain ⟨h1, h2⟩ := stepEvent_inv s e s1 he hp hh
          exact ih s1 s' h h1 h2

/-- The configuration is constant along any event sequence. -/
theorem runEvents_config (es : List ASEvent) : ∀ s s' : AvellanedaStoikov,
    runEvents s es = some s' → s'.config = s.config := by
  induction es with
  | nil =>
      intro s s' h
      simp only [runEvents, Option.some_inj] at h
      subst h
      rfl
  | cons e es ih =>
      intro s s' h
      rw [runEvents] at h
      cases he : stepEvent s e with
      | none => rw [he] at h; cases h
      | some s1 =>
          rw [he] at h
          rw [ih s1 s' h, stepEvent_config s e s1 he]

/-- Appending to a non-empty list and dropping the front commute. -/
theorem tail_append_singleton {α : Type} (l : List α) (x : α) (h : l ≠ []) :
    (l ++ [x]).tail = l.tail ++ [x] := by
  cases l with
  | nil => exact absurd rfl h
  | cons a l => rfl

/-- Running fills whose sides are buy or sell always succeeds and adds the
signed quantities to the inventory, leaving the configuration unchanged. -/
theorem runFills_spec (fills : List (OrderSide × ℝ)) :
    ∀ s : AvellanedaStoikov, (∀ f ∈ fills, f.1 ≠ OrderSide.noOrderSide) →
    ∃ s', runFills s fills = some s' ∧
      s'.inventory = s.inventory + (fills.map signedQty).sum ∧
      s'.config = s.config := by
  induction fills with
  | nil =>
      intro s _
      exact ⟨s, rfl, by simp, rfl⟩
  | cons f fs ih =>
      intro s h
      obtain ⟨side, qty⟩ := f
      cases side with
      | noOrderSide => exact absurd rfl (h _ (List.mem_cons_self _ _))
      | buy =>
          obtain ⟨s', h1, h2, h3⟩ := ih
            { s with inventory_adjustments := s.inventory_adjustments + 1,
                     inventory := s.inventory + qty }
            (fun g hg => h g (List.mem_cons_of_mem _ hg))
          refine ⟨s', ?_, ?_, h3⟩
          · simpa [runFills, AvellanedaStoikov.on_fill] using h1
          · rw [h2]
            simp [signedQty]
            ring
      | sell =>
          obtain ⟨s', h1, h2, h3⟩ := ih
            { s with inventory_adjustments := s.inventory_adjustments + 1,
                     inventory := s.inventory - qty }
            (fun g hg => h g (List.mem_cons_of_mem _ hg))
          refine ⟨s', ?_, ?_, h3⟩
          · simpa [runFills, AvellanedaStoikov.on_fill] using h1
          · rw [h2]
            simp [signedQty]
            ring

/-- The guarded accumulation of the Parkinson loop equals the sum of
squared log ranges over the filtered (strictly positive) pairs. -/
theorem parkinson_foldl_eq (l : List (ℝ × ℝ)) : ∀ acc : ℝ,
    l.foldl (fun acc p =>
        if 0 < p.1 ∧ 0 < p.2 then
          acc + Real.log (p.1 / p.2) * Real.log (p.1 / p.2)
        else acc) acc
      = acc + ((l.filter fun p => decide (0 < p.1) && decide (0 < p.2)).map
          (fun p => Real.log (p.1 / p.2) ^ 2)).sum := by
  induction l with
  | nil => intro acc; simp
  | cons p l ih =>
      intro acc
      by_cases hp : 0 < p.1 ∧ 0 < p.2
      · rw [List.foldl_cons, if_pos hp, ih, List.filter_cons,
          if_pos (by simpa using hp)]
        simp only [List.map_cons, List.sum_cons]
        ring
      · rw [List.foldl_cons, if_neg hp, ih, List.filter_cons,
          if_neg (by simpa using hp)]

/-- Claim C1, counterexample: with the (valid) default configuration, the
snapshot with `best_bid = best_ask = 0` yields a quote with
`ask_price = bid_price`, so `ask_price > bid_price` does not hold for
every valid configuration and snapshot. -/
theorem quote_cex :
    defaultASConfig.valid ∧
    quoteGap ((AvellanedaStoikov.new defaultASConfig).on_orderbook_update
      ⟨0, 0, 1, 1, 0⟩) = some 0 := by
  constructor
  · refine ⟨by norm_num [defaultASConfig], by norm_num [defaultASConfig],
      by norm_num [defaultASConfig], by norm_num [defaultASConfig]⟩
  · unfold quoteGap AvellanedaStoikov.on_orderbook_update
      AvellanedaStoikov.calculate_quotes AvellanedaStoikov.update_price_history
      AvellanedaStoikov.new
    dsimp only
    rw [rustClamp, if_pos (by norm_num [defaultASConfig])]
    dsimp only [Option.map_some']
    congr 1
    rw [show ((0:ℝ) + 0) * 0.5 * defaultASConfig.min_spread_bps / 10000
        = 0 by norm_num]
    rw [show ((0:ℝ) + 0) * 0.5 * defaultASConfig.max_spread_bps / 10000
        = 0 by norm_num]
    rw [max_eq_left (min_le_right _ _)]
    ring

/-- Claim C1 (amended): for a valid configuration with
`min_spread_bps > 0` and a snapshot with positive `best_bid + best_ask`,
the quote returned by `on_orderbook_update` satisfies
`ask_price > bid_price` and its `spread` lies within
`[mid*min_spread_bps/10000, mid*max_spread_bps/10000]` where
`mid = (best_bid + best_ask)/2` from that same update. -/
theorem quote_spread_bounds (s : AvellanedaStoikov) (snap : OrderBookSnapshot)
    (hvalid : s.config.valid) (hmin : 0 < s.config.min_spread_bps)
    (hmid : 0 < snap.best_bid + snap.best_ask) :
    ∃ q s', s.on_orderbook_update snap = some (q, s') ∧
      q.bid_price < q.ask_price ∧
      (snap.best_bid + snap.best_ask) * 0.5 * s.config.min_spread_bps / 10000
        ≤ q.spread ∧
      q.spread
        ≤ (snap.best_bid + snap.best_ask) * 0.5 * s.config.max_spread_bps
            / 10000 := by
  obtain ⟨hgamma, hbase, hspread, hwin⟩ := hvalid
  unfold AvellanedaStoikov.on_orderbook_update AvellanedaStoikov.calculate_quotes
    AvellanedaStoikov.update_price_history
  dsimp only
  have hmid2 : 0 < (snap.best_bid + snap.best_ask) * 0.5 := by linarith
  have hlo : 0 < (snap.best_bid + snap.best_ask) * 0.5
      * s.config.min_spread_bps / 10000 := by positivity
  have hlohi : (snap.best_bid + snap.best_ask) * 0.5
      * s.config.min_spread_bps / 10000
      ≤ (snap.best_bid + snap.best_ask) * 0.5
      * s.config.max_spread_bps / 10000 := by
    apply div_le_div_of_nonneg_right ?_ (by norm_num)
    · exact mul_le_mul_of_nonneg_left hspread.le hmid2.le
  split
  · next heq =>
      rw [rustClamp, if_pos hlohi] at heq
      cases heq
  · next clamped heq =>
      rw [rustClamp, if_pos hlohi] at heq
      injection heq with h
      have hclo : (snap.best_bid + snap.best_ask) * 0.5
          * s.config.min_spread_bps / 10000 ≤ clamped :=
        h ▸ le_max_left _ _
      have hchi : clamped ≤ (snap.best_bid + snap.best_ask) * 0.5
          * s.config.max_spread_bps / 10000 :=
        h ▸ max_le hlohi (min_le_right _ _)
      have hc0 : 0 < clamped := lt_of_lt_of_le hlo hclo
      refine ⟨_, _, rfl, ?_, hclo, hchi⟩
      dsimp only
      linarith [hc0]

/-- Claim C1, witness: the amended theorem applied to the default
configuration and the snapshot (50000, 50010). -/
theorem quote_spread_bounds_witness :
    defaultASConfig.valid ∧
    (0:ℝ) < defaultASConfig.min_spread_bps ∧
    (0:ℝ) < (50000:ℝ) + 50010 ∧
    (∃ q s', (AvellanedaStoikov.new defaultASConfig).on_orderbook_update
        ⟨50000, 50010, 1, 1, 0⟩ = some (q, s') ∧
      q.bid_price < q.ask_price ∧
      ((50000:ℝ) + 50010) * 0.5 * defaultASConfig.min_spread_bps / 10000
        ≤ q.spread ∧
      q.spread ≤ ((50000:ℝ) + 50010) * 0.5 * defaultASConfig.max_spread_bps
          / 10000) := by
  have hv : defaultASConfig.valid :=
    ⟨by norm_num [defaultASConfig], by norm_num [defaultASConfig],
     by norm_num [defaultASConfig], by norm_num [defaultASConfig]⟩
  refine ⟨hv, by norm_num [defaultASConfig], by norm_num, ?_⟩
  exact quote_spread_bounds (AvellanedaStoikov.new defaultASConfig)
    ⟨50000, 50010, 1, 1, 0⟩ hv
    (by norm_num [AvellanedaStoikov.new, defaultASConfig]) (by norm_num)

/-- Claim C2, counterexample: `on_fill` with `OrderSide::NoOrderSide` hits
the `todo!()` arm (a panic), and `on_orderbook_update` with negative
prices makes `clamp` panic because `min_spread > max_spread`: the hot
path is not total on all inputs. -/
theorem hot_path_cex :
    (AvellanedaStoikov.new defaultASConfig).on_fill OrderSide.noOrderSide 1
      = none ∧
    (AvellanedaStoikov.new defaultASConfig).on_orderbook_update
      ⟨-1, -1, 1, 1, 0⟩ = none := by
  constructor
  · rfl
  · unfold AvellanedaStoikov.on_orderbook_update
      AvellanedaStoikov.calculate_quotes AvellanedaStoikov.update_price_history
      AvellanedaStoikov.new
    dsimp only
    rw [rustClamp, if_neg (by norm_num [defaultASConfig])]

/-- Claim C2 (amended): the hot path runs to completion whenever
`min_spread_bps ≤ max_spread_bps` and the snapshot has a non-negative
mid-price, and `on_fill` succeeds for every buy or sell side and any
quantity (`on_bar` is total by construction). -/
theorem hot_path_total (s : AvellanedaStoikov) (snap : OrderBookSnapshot)
    (side : OrderSide) (qty : ℝ) :
    (s.config.min_spread_bps ≤ s.config.max_spread_bps →
      0 ≤ snap.best_bid + snap.best_ask →
      (s.on_orderbook_update snap).isSome) ∧
    (side ≠ OrderSide.noOrderSide → (s.on_fill side qty).isSome) := by
  constructor
  · intro hbps hmid
    unfold AvellanedaStoikov.on_orderbook_update
      AvellanedaStoikov.calculate_quotes AvellanedaStoikov.update_price_history
    dsimp only
    have hmid2 : 0 ≤ (snap.best_bid + snap.best_ask) * 0.5 := by linarith
    have hlohi : (snap.best_bid + snap.best_ask) * 0.5
        * s.config.min_spread_bps / 10000
        ≤ (snap.best_bid + snap.best_ask) * 0.5
        * s.config.max_spread_bps / 10000 := by
      apply div_le_div_of_nonneg_right ?_ (by norm_num)
      · exact mul_le_mul_of_nonneg_left hbps hmid2
    rw [rustClamp, if_pos hlohi]
    rfl
  · intro hside
    unfold AvellanedaStoikov.on_fill
    cases side with
    | buy => rfl
    | sell => rfl
    | noOrderSide => exact absurd rfl hside

/-- Claim C2, witness: the amended theorem applied to the default
configuration, a positive snapshot and a buy fill. -/
theorem hot_path_total_witness :
    ((AvellanedaStoikov.new defaultASConfig).on_orderbook_update
      ⟨50000, 50010, 1, 1, 0⟩).isSome ∧
    ((AvellanedaStoikov.new defaultASConfig).on_fill OrderSide.buy 1).isSome := by
  constructor
  · exact (hot_path_total (AvellanedaStoikov.new defaultASConfig)
      ⟨50000, 50010, 1, 1, 0⟩ OrderSide.buy 1).1
      (by norm_num [AvellanedaStoikov.new, defaultASConfig]) (by norm_num)
  · exact (hot_path_total (AvellanedaStoikov.new defaultASConfig)
      ⟨50000, 50010, 1, 1, 0⟩ OrderSide.buy 1).2 (by simp)

/-- Claim C3, counterexample: with stored pairs `[(1,1), (-1,1)]` only one
pair is valid, so the claim demands the default `0.01`; the code instead
passes the `len >= 2` guard (total length counts), skips the invalid
pair only in the sum and divides by the full length, returning `0`. -/
theorem parkinson_cex :
    parkinsonCexState.high_low_history = [(1, 1), (-1, 1)] ∧
    parkinsonCexState.calculate_parkinson_volatility = 0 ∧
    (0 : ℝ) ≠ 0.01 := by
  refine ⟨rfl, ?_, by norm_num⟩
  unfold AvellanedaStoikov.calculate_parkinson_volatility parkinsonCexState
  rw [if_neg (by simp)]
  dsimp only
  norm_num [List.foldl, Real.log_one]

/-- Claim C3 (amended): in Parkinson mode the volatility recomputed on a
bar event is `calculate_parkinson_volatility` of the updated history;
that estimator returns the 0.01 default when fewer than 2 pairs are
stored (valid or not), and otherwise equals
`sqrt(Σ ln(H/L)² / (n·4·ln 2))` where the sum skips pairs with
non-positive high or low but `n` is the full stored length, skipped
pairs included. -/
theorem parkinson_semantics :
    (∀ (s : AvellanedaStoikov) (b : Bar), s.config.use_parkinson = true →
        (s.on_bar b).volatility
          = AvellanedaStoikov.calculate_parkinson_volatility
              { s with high_low_history := (s.on_bar b).high_low_history }) ∧
    (∀ s : AvellanedaStoikov, s.high_low_history.length < 2 →
        s.calculate_parkinson_volatility = 0.01) ∧
    (∀ s : AvellanedaStoikov, 2 ≤ s.high_low_history.length →
        s.calculate_parkinson_volatility
          = Real.sqrt
              (((s.high_low_history.filter fun p =>
                    decide (0 < p.1) && decide (0 < p.2)).map
                  (fun p => Real.log (p.1 / p.2) ^ 2)).sum
                / (s.high_low_history.length * 4 * Real.log 2))) := by
  refine ⟨?_, ?_, ?_⟩
  · intro s b h
    unfold AvellanedaStoikov.on_bar
    dsimp only
    simp only [h, if_true]
  · intro s h
    unfold AvellanedaStoikov.calculate_parkinson_volatility
    rw [if_pos h]
  · intro s h
    unfold AvellanedaStoikov.calculate_parkinson_volatility
    rw [if_neg (by omega)]
    dsimp only
    rw [parkinson_foldl_eq]
    norm_num

/-- Claim C3, witness: the amended theorem applied to a fresh engine (bar
link and short-history default) and to the two-pair state. -/
theorem parkinson_semantics_witness :
    ((AvellanedaStoikov.new defaultASConfig).on_bar ⟨1, 2, 1, 1, 1, 0⟩).volatility
      = AvellanedaStoikov.calculate_parkinson_volatility
          { AvellanedaStoikov.new defaultASConfig with
              high_low_history :=
                ((AvellanedaStoikov.new defaultASConfig).on_bar
                  ⟨1, 2, 1, 1, 1, 0⟩).high_low_history } ∧
    (AvellanedaStoikov.new defaultASConfig).calculate_parkinson_volatility
      = 0.01 ∧
    parkinsonCexState.calculate_parkinson_volatility
      = Real.sqrt
          (((parkinsonCexState.high_low_history.filter fun p =>
                decide (0 < p.1) && decide (0 < p.2)).map
              (fun p => Real.log (p.1 / p.2) ^ 2)).sum
            / (parkinsonCexState.high_low_history.length * 4 * Real.log 2)) := by
  refine ⟨?_, ?_, ?_⟩
  · exact parkinson_semantics.1 (AvellanedaStoikov.new defaultASConfig)
      ⟨1, 2, 1, 1, 1, 0⟩ rfl
  · exact parkinson_semantics.2.1 (AvellanedaStoikov.new defaultASConfig)
      (by simp [AvellanedaStoikov.new])
  · exact parkinson_semantics.2.2 parkinsonCexState
      (by simp [parkinsonCexState])

/-- Claim C4: all three estimators return a non-negative volatility (the
EWMA estimator keeps a non-negative running variance for any smoothing
factor in (0,1)), and each window-based estimator returns the 0.01
default with 0 or 1 stored samples. -/
theorem volatility_nonneg :
    (∀ s : AvellanedaStoikov, 0 ≤ s.calculate_parkinson_volatility) ∧
    (∀ s : AvellanedaStoikov, 0 ≤ s.calculate_standard_volatility) ∧
    (∀ (e : EWMAVolatility) (r : ℝ), 0 < e.alpha → e.alpha < 1 →
        0 ≤ e.variance →
        0 ≤ (e.update r).1.variance ∧ 0 ≤ (e.update r).2) ∧
    (∀ s : AvellanedaStoikov, s.high_low_history.length ≤ 1 →
        s.calculate_parkinson_volatility = 0.01) ∧
    (∀ s : AvellanedaStoikov, s.price_history.length ≤ 1 →
        s.calculate_standard_volatility = 0.01) := by
  refine ⟨?_, ?_, ?_, ?_, ?_⟩
  · intro s
    unfold AvellanedaStoikov.calculate_parkinson_volatility
    dsimp only
    split
    · norm_num
    · exact Real.sqrt_nonneg _
  · intro s
    unfold AvellanedaStoikov.calculate_standard_volatility
    dsimp only
    split
    · norm_num
    · split
      · norm_num
      · exact Real.sqrt_nonneg _
  · intro e r h0 h1 hv
    unfold EWMAVolatility.update
    dsimp only
    constructor
    · split
      · exact mul_self_nonneg r
      · have k1 : 0 ≤ e.alpha * (r * r) :=
          mul_nonneg h0.le (mul_self_nonneg r)
        have k2 : 0 ≤ (1 - e.alpha) * e.variance :=
          mul_nonneg (by linarith) hv
        dsimp only
        nlinarith [k1, k2]
    · exact Real.sqrt_nonneg _
  · intro s hlen
    unfold AvellanedaStoikov.calculate_parkinson_volatility
    rw [if_pos (by omega)]
  · intro s hlen
    unfold AvellanedaStoikov.calculate_standard_volatility
    rw [if_pos (by omega)]

/-- Claim C4, witness: the theorem applied to a fresh engine and a fresh
EWMA estimator with smoothing factor 1/2. -/
theorem volatility_nonneg_witness :
    (0 ≤ (AvellanedaStoikov.new defaultASConfig).calculate_parkinson_volatility) ∧
    (0 ≤ (AvellanedaStoikov.new defaultASConfig).calculate_standard_volatility) ∧
    (0 ≤ ((EWMAVolatility.new (1/2)).update 2).1.variance ∧
      0 ≤ ((EWMAVolatility.new (1/2)).update 2).2) ∧
    (AvellanedaStoikov.new defaultASConfig).calculate_parkinson_volatility
      = 0.01 ∧
    (AvellanedaStoikov.new defaultASConfig).calculate_standard_volatility
      = 0.01 := by
  refine ⟨volatility_nonneg.1 _, volatility_nonneg.2.1 _, ?_, ?_, ?_⟩
  · exact volatility_nonneg.2.2.1 (EWMAVolatility.new (1/2)) 2
      (by norm_num [EWMAVolatility.new]) (by norm_num [EWMAVolatility.new])
      (by norm_num [EWMAVolatility.new])
  · exact volatility_nonneg.2.2.2.1 (AvellanedaStoikov.new defaultASConfig)
      (by simp [AvellanedaStoikov.new])
  · exact volatility_nonneg.2.2.2.2 (AvellanedaStoikov.new defaultASConfig)
      (by simp [AvellanedaStoikov.new])

/-- Claim C5: from a fresh engine, any event sequence that completes keeps
both rolling histories within `volatility_window`; and whenever a push
arrives with the history at (or beyond) capacity, the new history is the
old one with exactly the front (oldest) entry dropped and the new value
appended — strict FIFO eviction. -/
theorem history_bounded_fifo :
    (∀ (cfg : ASConfig) (es : List ASEvent) (s' : AvellanedaStoikov),
        runEvents (AvellanedaStoikov.new cfg) es = some s' →
        s'.price_history.length ≤ cfg.volatility_window ∧
        s'.high_low_history.length ≤ cfg.volatility_window) ∧
    (∀ (s : AvellanedaStoikov) (p : ℝ), 0 < s.config.volatility_window →
        s.config.volatility_window ≤ s.price_history.length →
        (s.update_price_history p).price_history
          = s.price_history.tail ++ [p]) ∧
    (∀ (s : AvellanedaStoikov) (b : Bar), 0 < s.config.volatility_window →
        s.config.volatility_window ≤ s.high_low_history.length →
        (s.on_bar b).high_low_history
          = s.high_low_history.tail ++ [(b.high, b.low)]) := by
  refine ⟨?_, ?_, ?_⟩
  · intro cfg es s' h
    have hinv := runEvents_inv es (AvellanedaStoikov.new cfg) s' h
      (by simp [AvellanedaStoikov.new]) (by simp [AvellanedaStoikov.new])
    have hc := runEvents_config es (AvellanedaStoikov.new cfg) s' h
    rw [hc] at hinv
    exact hinv
  · intro s p hw hlen
    unfold AvellanedaStoikov.update_price_history
    dsimp only
    rw [if_pos (by simp; omega)]
    exact tail_append_singleton _ _
      (by intro hnil; rw [hnil] at hlen; simp at hlen; omega)
  · intro s b hw hlen
    unfold AvellanedaStoikov.on_bar
    dsimp only
    rw [if_pos (by simp; omega)]
    exact tail_append_singleton _ _
      (by intro hnil; rw [hnil] at hlen; simp at hlen; omega)

/-- Claim C5, witness: the theorem applied to the empty event sequence and
to window-1 states at capacity. -/
theorem history_bounded_fifo_witness :
    ((AvellanedaStoikov.new defaultASConfig).price_history.length
        ≤ defaultASConfig.volatility_window ∧
      (AvellanedaStoikov.new defaultASConfig).high_low_history.length
        ≤ defaultASConfig.volatility_window) ∧
    ({ AvellanedaStoikov.new
          { defaultASConfig with volatility_window := 1 } with
        price_history := [5] }.update_price_history 7).price_history
      = List.tail [5] ++ [7] ∧
    ({ AvellanedaStoikov.new
          { defaultASConfig with volatility_window := 1 } with
        high_low_history := [(5, 4)] }.on_bar
        ⟨1, 9, 8, 1, 1, 0⟩).high_low_history
      = List.tail [(5, 4)] ++ [(9, 8)] := by
  refine ⟨?_, ?_, ?_⟩
  · exact history_bounded_fifo.1 defaultASConfig []
      (AvellanedaStoikov.new defaultASConfig) rfl
  · exact history_bounded_fifo.2.1
      { AvellanedaStoikov.new
          { defaultASConfig with volatility_window := 1 } with
        price_history := [5] } 7 (by simp [AvellanedaStoikov.new])
      (by simp [AvellanedaStoikov.new])
  · exact history_bounded_fifo.2.2
      { AvellanedaStoikov.new
          { defaultASConfig with volatility_window := 1 } with
        high_low_history := [(5, 4)] } ⟨1, 9, 8, 1, 1, 0⟩
      (by simp [AvellanedaStoikov.new]) (by simp [AvellanedaStoikov.new])

/-- Claim C6: any sequence of buy/sell fills succeeds (no fill is rejected
or clamped, whatever the inventory) and leaves the inventory at the
signed sum of the quantities; in particular a buy of `a` then a sell of
`b` from a fresh engine leaves inventory `a - b`. -/
theorem inventory_additive :
    (∀ (fills : List (OrderSide × ℝ)) (s : AvellanedaStoikov),
        (∀ f ∈ fills, f.1 ≠ OrderSide.noOrderSide) →
        ∃ s', runFills s fills = some s' ∧
          s'.inventory = s.inventory + (fills.map signedQty).sum) ∧
    (∀ (cfg : ASConfig) (a b : ℝ),
        ∃ s', runFills (AvellanedaStoikov.new cfg)
            [(OrderSide.buy, a), (OrderSide.sell, b)] = some s' ∧
          s'.inventory = a - b) := by
  constructor
  · intro fills s h
    obtain ⟨s', h1, h2, _⟩ := runFills_spec fills s h
    exact ⟨s', h1, h2⟩
  · intro cfg a b
    obtain ⟨s', h1, h2, _⟩ := runFills_spec
      [(OrderSide.buy, a), (OrderSide.sell, b)] (AvellanedaStoikov.new cfg)
      (by intro f hf; simp only [List.mem_cons, List.not_mem_nil,
            or_false] at hf; rcases hf with rfl | rfl <;> simp)
    refine ⟨s', h1, ?_⟩
    rw [h2]
    simp [signedQty, AvellanedaStoikov.new]
    ring

/-- Claim C6, witness: the theorem applied to the fills
[buy 3, sell 1] from a fresh engine. -/
theorem inventory_additive_witness :
    (∃ s', runFills (AvellanedaStoikov.new defaultASConfig)
        [(OrderSide.buy, 3), (OrderSide.sell, 1)] = some s' ∧
      s'.inventory = (AvellanedaStoikov.new defaultASConfig).inventory
        + ([(OrderSide.buy, (3:ℝ)), (OrderSide.sell, 1)].map signedQty).sum) ∧
    (∃ s', runFills (AvellanedaStoikov.new defaultASConfig)
        [(OrderSide.buy, 3), (OrderSide.sell, 1)] = some s' ∧
      s'.inventory = 3 - 1) := by
  constructor
  · exact inventory_additive.1 [(OrderSide.buy, 3), (OrderSide.sell, 1)]
      (AvellanedaStoikov.new defaultASConfig)
      (by intro f hf
          simp only [List.mem_cons, List.not_mem_nil, or_false] at hf
          rcases hf with rfl | rfl <;> simp)
  · exact inventory_additive.2 defaultASConfig 3 1

/-- Claim C7: after `reset`, `get_stats` reports all three counters at
zero, zero inventory, the 0.01 default volatility and zero mid-price;
both history buffers are empty, the last-update timestamp is cleared,
and the configuration is unchanged — from any state whatsoever. -/
theorem reset_stats (s : AvellanedaStoikov) :
    s.reset.get_stats = ⟨0, 0, 0, 0, 0.01, 0⟩ ∧
    s.reset.price_history = [] ∧ s.reset.high_low_history = [] ∧
    s.reset.last_update_ns = 0 ∧ s.reset.config = s.config :=
  ⟨rfl, rfl, rfl, rfl, rfl⟩

/-- Claim C8: `validate` succeeds exactly when none of the four rejection
conditions holds, and returns a (descriptive) error exactly when
risk aversion is non-positive, or base order size is non-positive, or
`max_spread_bps ≤ min_spread_bps`, or the volatility window is zero. -/
theorem validate_iff (c : StrategyConfig) :
    (c.validate = .ok () ↔
      ¬ (c.risk_aversion ≤ 0 ∨ c.base_order_size ≤ 0 ∨
         c.max_spread_bps ≤ c.min_spread_bps ∨ c.volatility_window = 0)) ∧
    ((∃ e, c.validate = .error e) ↔
      (c.risk_aversion ≤ 0 ∨ c.base_order_size ≤ 0 ∨
       c.max_spread_bps ≤ c.min_spread_bps ∨ c.volatility_window = 0)) := by
  unfold StrategyConfig.validate
  split_ifs <;> simp_all

/-- Claim C9: for the standalone EWMA estimator, the first update seeds
the variance with `r₀²` and the second update returns exactly
`sqrt(α·r₁² + (1-α)·r₀²)`. -/
theorem ewma_closed (α r₀ r₁ : ℝ) (h0 : 0 < α) (h1 : α < 1) :
    (((EWMAVolatility.new α).update r₀).1.update r₁).2
      = Real.sqrt (α * r₁ ^ 2 + (1 - α) * r₀ ^ 2) := by
  simp [EWMAVolatility.new, EWMAVolatility.update]
  congr 1
  ring

/-- Claim C9, witness: the closed form at α = 1/2, r₀ = 1, r₁ = 2. -/
theorem ewma_closed_witness :
    (0:ℝ) < 1/2 ∧ (1:ℝ)/2 < 1 ∧
    (((EWMAVolatility.new (1/2)).update 1).1.update 2).2
      = Real.sqrt ((1/2) * 2 ^ 2 + (1 - 1/2) * 1 ^ 2) := by
  refine ⟨by norm_num, by norm_num, ?_⟩
  exact ewma_closed (1/2) 1 2 (by norm_num) (by norm_num)

/-- Claim C10: in every quote produced by `on_orderbook_update`, the
inventory penalty `q·inventory_penalty_factor·σ` is subtracted from the
bid and the ask by the same amount — bid and ask are the reservation
price minus/plus half the clamped spread, both shifted down by the
penalty — so `ask_price - bid_price` equals the `spread` field, for
every state (hence every inventory level). -/
theorem quote_gap (s : AvellanedaStoikov) (snap : OrderBookSnapshot) :
    (s.on_orderbook_update snap).map (fun p => p.1.ask_price - p.1.bid_price)
      = (s.on_orderbook_update snap).map (fun p => p.1.spread) ∧
    (s.on_orderbook_update snap).map (fun p => p.1.bid_price)
      = (s.on_orderbook_update snap).map (fun p =>
          p.1.reservation_price - p.1.spread * 0.5
            - s.inventory * s.config.inventory_penalty_factor * s.volatility) ∧
    (s.on_orderbook_update snap).map (fun p => p.1.ask_price)
      = (s.on_orderbook_update snap).map (fun p =>
          p.1.reservation_price + p.1.spread * 0.5
            - s.inventory * s.config.inventory_penalty_factor * s.volatility) := by
  unfold AvellanedaStoikov.on_orderbook_update AvellanedaStoikov.calculate_quotes
    AvellanedaStoikov.update_price_history
  dsimp only
  refine ⟨?_, ?_, ?_⟩
  · split
    · rfl
    · simp only [Option.map_some']
      congr 2
      ring
  · split
    · rfl
    · simp only [Option.map_some']
  · split
    · rfl
    · simp only [Option.map_some']
